import Mathlib

/-!
Shallow embedding of `src/app.py` of the warframe-market-arbitrage
repository, and proofs about the claims of its specification.

Conventions of the embedding:
* Python dicts keep insertion order, so a dict is modelled as an
  association list `List (String × _)` (keys are unique in all uses).
* Python `int` is `Int`.
* A Python function that can raise models the raised exception with
  `Except PyErr _`; the distinct exception classes the code can raise
  are the constructors of `PyErr`.
* Network traffic is modelled by passing the fetched payload (or the
  fetch failure) as an argument, since the code does nothing with the
  response besides parsing it.
* `time.sleep` calls are irrelevant to the values computed and are not
  modelled; `KeyboardInterrupt` (an asynchronous user signal) is not
  modelled either.
-/

/-- One entry of `assets/prime_warframes.json`: the fields the code reads
are `market_name` and `name`. -/
structure PrimeWarframe where
  market_name : String
  name : String
  deriving Repr, DecidableEq

/-- The `user` sub-object of an order from the market API; the code reads
only `status`. -/
structure OrderUser where
  status : String
  deriving Repr, DecidableEq

/-- One order of the `payload.orders` list returned by the market API,
restricted to the fields relevant here.  The code reads `user.status`,
`platform`, `order_type` and `platinum`; the payload also carries a
`visible` flag, which the code never reads. -/
structure Order where
  user : OrderUser
  platform : String
  order_type : String
  platinum : Int
  visible : Bool
  deriving Repr, DecidableEq

/-- The exceptions the embedded code can raise. -/
inductive PyErr where
  /-- `urlopen` failed (network error, timeout, HTTP error). -/
  | urlError
  /-- a dict lookup failed. -/
  | keyError
  /-- `filtered_orders[0]` on an empty list. -/
  | indexError
  deriving Repr, DecidableEq

/-- `Scraper.market_name_to_name`: linear scan of `prime_warframes`,
returning the display name of the first entry whose `market_name`
matches, `None` if there is none. -/
def market_name_to_name (prime_warframes : List PrimeWarframe) (market_name : String) :
    Option String :=
  match prime_warframes with
  | [] => none
  | w :: rest =>
    if w.market_name = market_name then some w.name
    else market_name_to_name rest market_name

/-- `Scraper.filter_orders`: keeps an order unless `user.status ≠ 'ingame'`,
or `platform ≠ 'pc'`, or `order_type ≠ 'sell'` (the three `continue`
branches of the loop, in source order). -/
def filter_orders (orders : List Order) : List Order :=
  match orders with
  | [] => []
  | o :: rest =>
    if o.user.status ≠ "ingame" then filter_orders rest
    else if o.platform ≠ "pc" then filter_orders rest
    else if o.order_type ≠ "sell" then filter_orders rest
    else o :: filter_orders rest

/-- The order filter the specification describes, for comparison with
`filter_orders`: sell-side, currently visible, seller in-game. -/
def spec_filter_orders (orders : List Order) : List Order :=
  orders.filter fun o =>
    decide (o.order_type = "sell") && o.visible && decide (o.user.status = "ingame")

/-- The `for order in filtered_orders` loop of `Scraper.get_lowest_price`:
keeps the smallest `platinum` seen, starting from `lowest`. -/
def lowest_loop (filtered_orders : List Order) (lowest : Int) : Int :=
  match filtered_orders with
  | [] => lowest
  | o :: rest => lowest_loop rest (if o.platinum < lowest then o.platinum else lowest)

/-- `Scraper.get_lowest_price`, as a function of the fetched order list
(`parsed['payload']['orders']`); `Except.error` is a raised exception.
`fetched = .error e` models `urlopen`/`json` raising.  On an empty
filtered list, `filtered_orders[0]` raises `IndexError`.  Otherwise the
loop scans the whole filtered list (its first element included) and
keeps the smallest `platinum`. -/
def get_lowest_price (fetched : Except PyErr (List Order)) : Except PyErr Int :=
  match fetched with
  | .error e => .error e
  | .ok orders =>
    match filter_orders orders with
    | [] => .error .indexError
    | o :: rest => .ok (lowest_loop (o :: rest) o.platinum)

/-- `Scraper.construct_warframes_items`: for each prime warframe, the
fixed five-part manifest `(part_type, market item name)`, in source
order. -/
def construct_warframes_items (prime_warframes : List PrimeWarframe) :
    List (String × List (String × String)) :=
  prime_warframes.map fun w =>
    (w.market_name,
      [("set", w.market_name ++ "_set"),
       ("blueprint", w.market_name ++ "_blueprint"),
       ("systems", w.market_name ++ "_systems"),
       ("neuroptics", w.market_name ++ "_neuroptics"),
       ("chassis", w.market_name ++ "_chassis")])

/-- Outcome of the `while True` retry loop around one
`get_lowest_price` call in `Scraper.construct_warframes_prices`. -/
inductive LoopOutcome where
  /-- the price was obtained and the loop `break`s. -/
  | success (price : Int)
  /-- `retry_amount >= 3`: the warframe is popped and the loop `break`s. -/
  | abandoned
  /-- the loop is still iterating after the given number of iterations. -/
  | runningOut
  deriving Repr, DecidableEq

/-- The `while True` retry loop of `Scraper.construct_warframes_prices`
for one part, run for at most `fuel` iterations.  `attempt i` is the
result of the `i`-th `get_lowest_price` call for this part.  Each
iteration mirrors the source: inside the `try`, `retry_amount` is
(re)assigned to `0` before the call; on an exception it is incremented
and compared against `3`. -/
def retry_loop (attempt : Nat → Except PyErr Int) (retry_amount : Nat) (i : Nat) :
    Nat → LoopOutcome
  | 0 => .runningOut
  | fuel + 1 =>
    let retry_amount := 0
    match attempt i with
    | .ok v => .success v
    | .error _ =>
      let retry_amount := retry_amount + 1
      if retry_amount ≥ 3 then .abandoned
      else retry_loop attempt retry_amount (i + 1) fuel

/-- Outcome of the inner `for part_type, part_name` loop of
`Scraper.construct_warframes_prices` for one warframe. -/
inductive PartsOutcome where
  /-- every part's loop ended in success; the accumulated price dict. -/
  | done (prices : List (String × Int))
  /-- some part's loop ended with the warframe popped. -/
  | popped
  /-- some part's retry loop was still iterating when its fuel ran out. -/
  | hung
  deriving Repr, DecidableEq

/-- The `for part_type, part_name in warframe_parts.items()` loop of
`Scraper.construct_warframes_prices` for one warframe: each part's
retry loop runs with the given fuel bound, and its price is appended to
the warframe's price dict. -/
def process_parts (attempt : String → Nat → Except PyErr Int) (fuel : Nat) :
    List (String × String) → List (String × Int) → PartsOutcome
  | [], acc => .done acc
  | (part_type, part_name) :: rest, acc =>
    match retry_loop (attempt part_name) 0 0 fuel with
    | .success v => process_parts attempt fuel rest (acc ++ [(part_type, v)])
    | .abandoned => .popped
    | .runningOut => .hung

/-- `Scraper.construct_warframes_prices`: the outer loop over all
warframes.  `none` models the cycle never finishing (some retry loop
still iterating at its fuel bound); a popped warframe contributes no
entry. -/
def construct_warframes_prices (attempt : String → Nat → Except PyErr Int) (fuel : Nat) :
    List (String × List (String × String)) → List (String × List (String × Int)) →
    Option (List (String × List (String × Int)))
  | [], acc => some acc
  | (warframe_name, parts) :: rest, acc =>
    match process_parts attempt fuel parts [] with
    | .done prices => construct_warframes_prices attempt fuel rest (acc ++ [(warframe_name, prices)])
    | .popped => construct_warframes_prices attempt fuel rest acc
    | .hung => none

/-- One record of the arbitrage output dict, with the five fields
`Scraper.construct_warframes_arbitrage` stores. -/
structure ArbitrageData where
  arbitrage : Int
  parts_price : Int
  set_price : Int
  market_url : String
  display_name : Option String
  deriving Repr, DecidableEq

/-- Python dict lookup `d[key]` on an association list (keys are unique
in every use here), `none` modelling `KeyError`. -/
def dict_get (d : List (String × Int)) (key : String) : Option Int :=
  match d with
  | [] => none
  | p :: rest => if p.1 = key then some p.2 else dict_get rest key

/-- The `total_parts_price` accumulation of
`Scraper.construct_warframes_arbitrage`: sum of the prices of every
part whose `part_type` is not `'set'`. -/
def total_parts_price (warframe_prices : List (String × Int)) : Int :=
  warframe_prices.foldl (fun acc p => if p.1 ≠ "set" then acc + p.2 else acc) 0

/-- The body of the `for warframe_name, warframe_prices` loop of
`Scraper.construct_warframes_arbitrage` for one warframe: the record it
stores into `warframes_arbitrage[warframe_name]`.  `none` models the
uncaught `KeyError` of `warframe_prices['set']`. -/
def arbitrage_entry (prime_warframes : List PrimeWarframe) (warframe_name : String)
    (warframe_prices : List (String × Int)) : Option ArbitrageData :=
  match dict_get warframe_prices "set" with
  | none => none
  | some set_price =>
    let tpp := total_parts_price warframe_prices
    some
      { arbitrage := if tpp ≥ set_price then tpp - set_price else set_price - tpp
        parts_price := tpp
        set_price := set_price
        market_url := "https://warframe.market/items/" ++ warframe_name
        display_name := market_name_to_name prime_warframes warframe_name }

/-- `Scraper.filter_arbitrage`: drops every entry whose `arbitrage` is
strictly below `min_arbitrage`. -/
def filter_arbitrage (min_arbitrage : Int) (warframes_arbitrage : List (String × ArbitrageData)) :
    List (String × ArbitrageData) :=
  warframes_arbitrage.filter fun kv => !decide (kv.2.arbitrage < min_arbitrage)

/-- The record-building loop of `Scraper.construct_warframes_arbitrage`
over all warframes, before the final `filter_arbitrage` call. -/
def build_records (prime_warframes : List PrimeWarframe) :
    List (String × List (String × Int)) → Option (List (String × ArbitrageData))
  | [] => some []
  | (warframe_name, prices) :: rest =>
    match arbitrage_entry prime_warframes warframe_name prices,
          build_records prime_warframes rest with
    | some r, some rs => some ((warframe_name, r) :: rs)
    | _, _ => none

/-- `Scraper.construct_warframes_arbitrage`: build a record per
warframe, then keep only those meeting `min_arbitrage`. -/
def construct_warframes_arbitrage (prime_warframes : List PrimeWarframe) (min_arbitrage : Int)
    (warframes_prices : List (String × List (String × Int))) :
    Option (List (String × ArbitrageData)) :=
  (build_records prime_warframes warframes_prices).map (filter_arbitrage min_arbitrage)

/-- One row of the table built by `print_table`:
`[display_name, arbitrage, set_price, parts_price, market_url]`. -/
structure Row where
  display_name : Option String
  arbitrage : Int
  set_price : Int
  parts_price : Int
  market_url : String
  deriving Repr, DecidableEq

/-- The row `print_table` appends for one entry of the results dict. -/
def to_row (d : ArbitrageData) : Row :=
  { display_name := d.display_name
    arbitrage := d.arbitrage
    set_price := d.set_price
    parts_price := d.parts_price
    market_url := d.market_url }

/-- `sort_table(table, 1)` as `print_table` calls it: Python's `sorted`
is a stable ascending sort on the key, here column 1 (the arbitrage
value); `List.insertionSort` is stable and ascending, hence
extensionally the same function. -/
def sort_table (table : List Row) : List Row :=
  table.insertionSort fun a b => a.arbitrage ≤ b.arbitrage

/-- The rows `print_table` displays, in display order: rows are built in
dict insertion order, sorted ascending by arbitrage, then `reversed`. -/
def print_table_rows (results : List (String × ArbitrageData)) : List Row :=
  (sort_table (results.map fun kv => to_row kv.2)).reverse

/-! ## Helper lemmas -/

/-- The conjunction of the three `continue` checks of `filter_orders`. -/
def valid_order (o : Order) : Bool :=
  decide (o.user.status = "ingame") && decide (o.platform = "pc") &&
    decide (o.order_type = "sell")

/-- `filter_orders` is the `List.filter` of its three checks. -/
theorem filter_orders_eq_filter (l : List Order) : filter_orders l = l.filter valid_order := by
  induction l with
  | nil => rfl
  | cons a rest ih =>
    by_cases h1 : a.user.status = "ingame" <;> by_cases h2 : a.platform = "pc" <;>
      by_cases h3 : a.order_type = "sell" <;>
      simp [filter_orders, List.filter_cons, valid_order, h1, h2, h3, ih]

/-- Membership characterisation of `filter_orders`. -/
theorem mem_filter_orders (l : List Order) (o : Order) :
    o ∈ filter_orders l ↔
      o ∈ l ∧ o.user.status = "ingame" ∧ o.platform = "pc" ∧ o.order_type = "sell" := by
  rw [filter_orders_eq_filter, List.mem_filter]
  simp [valid_order, and_assoc]

/-- The running minimum of `lowest_loop` is an element of `lowest :: l` and a
lower bound of it. -/
theorem lowest_loop_spec (l : List Order) (lowest : Int) :
    (lowest_loop l lowest = lowest ∨ ∃ o ∈ l, lowest_loop l lowest = o.platinum) ∧
      lowest_loop l lowest ≤ lowest ∧ ∀ o ∈ l, lowest_loop l lowest ≤ o.platinum := by
  induction l generalizing lowest with
  | nil => simp [lowest_loop]
  | cons p rest ih =>
    obtain ⟨hmem, hle, hall⟩ := ih (if p.platinum < lowest then p.platinum else lowest)
    have hle2 : lowest_loop (p :: rest) lowest ≤ if p.platinum < lowest then p.platinum else lowest := hle
    refine ⟨?_, ?_, ?_⟩
    · rcases hmem with heq | ⟨o, ho, heq⟩
      · rw [lowest_loop, heq]
        split_ifs with hc
        · exact Or.inr ⟨p, List.mem_cons_self _ _, rfl⟩
        · exact Or.inl rfl
      · exact Or.inr ⟨o, List.mem_cons_of_mem _ ho, heq⟩
    · refine le_trans hle2 ?_
      split_ifs with hc
      · exact le_of_lt hc
      · exact le_refl _
    · intro o ho
      rcases List.mem_cons.1 ho with rfl | ho
      · refine le_trans hle2 ?_
        split_ifs with hc
        · exact le_refl _
        · exact le_of_not_lt hc
      · exact hall o ho

/-- `retry_loop` never returns `.abandoned`: `retry_amount` is reset to `0`
at the top of every iteration, so after an exception it is `1 < 3`. -/
theorem retry_loop_ne_abandoned (attempt : Nat → Except PyErr Int) :
    ∀ (fuel r i : Nat), retry_loop attempt r i fuel ≠ LoopOutcome.abandoned := by
  intro fuel
  induction fuel with
  | zero => intro r i h; cases h
  | succ n ih =>
    intro r i
    simp only [retry_loop]
    cases h : attempt i with
    | ok v => simp
    | error e => simpa using ih 1 (i + 1)

/-- If every attempt for a part raises, `retry_loop` is still iterating at
every fuel bound: the reset of `retry_amount` keeps it below `3` forever. -/
theorem retry_loop_always_fails (attempt : Nat → Except PyErr Int)
    (h : ∀ i, ∃ e, attempt i = Except.error e) :
    ∀ (fuel r i : Nat), retry_loop attempt r i fuel = LoopOutcome.runningOut := by
  intro fuel
  induction fuel with
  | zero => intro r i; rfl
  | succ n ih =>
    intro r i
    obtain ⟨e, he⟩ := h i
    simp only [retry_loop, he]
    simpa using ih 1 (i + 1)

/-- A warframe one of whose parts always fails makes its part loop hang. -/
theorem process_parts_of_failing_part (attempt : String → Nat → Except PyErr Int) (fuel : Nat)
    (parts : List (String × String)) (acc : List (String × Int))
    (h : ∃ p ∈ parts, ∀ i, ∃ e, attempt p.2 i = Except.error e) :
    process_parts attempt fuel parts acc = PartsOutcome.hung := by
  induction parts generalizing acc with
  | nil => simp at h
  | cons q rest ih =>
    obtain ⟨p, hp, hfail⟩ := h
    obtain ⟨qt, qn⟩ := q
    rcases List.mem_cons.1 hp with heq | hmem
    · have hrun : retry_loop (attempt qn) 0 0 fuel = LoopOutcome.runningOut := by
        have : p.2 = qn := by rw [heq]
        exact retry_loop_always_fails (attempt qn) (this ▸ hfail) fuel 0 0
      simp [process_parts, hrun]
    · cases hro : retry_loop (attempt qn) 0 0 fuel with
      | success v =>
        simp only [process_parts, hro]
        exact ih _ ⟨p, hmem, hfail⟩
      | abandoned => exact absurd hro (retry_loop_ne_abandoned _ _ _ _)
      | runningOut => simp [process_parts, hro]

/-- A cycle containing a warframe with a part that always fails never
finishes: `construct_warframes_prices` yields no price map. -/
theorem construct_prices_of_failing_part (attempt : String → Nat → Except PyErr Int) (fuel : Nat)
    (ws : List (String × List (String × String))) (acc : List (String × List (String × Int)))
    (h : ∃ w ∈ ws, ∃ p ∈ w.2, ∀ i, ∃ e, attempt p.2 i = Except.error e) :
    construct_warframes_prices attempt fuel ws acc = none := by
  induction ws generalizing acc with
  | nil => simp at h
  | cons w rest ih =>
    obtain ⟨w0, hw0, hfail⟩ := h
    obtain ⟨wn, wparts⟩ := w
    rcases List.mem_cons.1 hw0 with heq | hmem
    · have hhung : process_parts attempt fuel wparts [] = PartsOutcome.hung := by
        have h2 : w0.2 = wparts := by rw [heq]
        exact process_parts_of_failing_part attempt fuel wparts [] (h2 ▸ hfail)
      simp [construct_warframes_prices, hhung]
    · cases hpo : process_parts attempt fuel wparts [] with
      | done prices =>
        simp only [construct_warframes_prices, hpo]
        exact ih _ ⟨w0, hmem, hfail⟩
      | popped =>
        simp only [construct_warframes_prices, hpo]
        exact ih _ ⟨w0, hmem, hfail⟩
      | hung => simp [construct_warframes_prices, hpo]

/-- What `arbitrage_entry` stores: its `arbitrage` field is the absolute
difference of the stored `set_price` and `parts_price`, the `parts_price`
field is `total_parts_price`, and `set_price` is the dict's `'set'` entry. -/
theorem arbitrage_entry_fields (pw : List PrimeWarframe) (n : String)
    (prices : List (String × Int)) (r : ArbitrageData)
    (h : arbitrage_entry pw n prices = some r) :
    r.arbitrage = |r.set_price - r.parts_price| ∧
      r.parts_price = total_parts_price prices ∧
      dict_get prices "set" = some r.set_price := by
  unfold arbitrage_entry at h
  cases hs : dict_get prices "set" with
  | none => rw [hs] at h; cases h
  | some sp =>
    rw [hs] at h
    simp only [Option.some.injEq] at h
    subst h
    refine ⟨?_, rfl, rfl⟩
    simp only
    rcases le_or_lt sp (total_parts_price prices) with hge | hlt
    · rw [if_pos hge, abs_of_nonpos (by omega)]
      omega
    · rw [if_neg (by omega), abs_of_nonneg (by omega)]

/-- Membership in `build_records`: a pair is a built record exactly when it
is the `arbitrage_entry` of some input entry. -/
theorem build_records_mem (pw : List PrimeWarframe) (wp : List (String × List (String × Int)))
    (rs : List (String × ArbitrageData)) (h : build_records pw wp = some rs)
    (n : String) (r : ArbitrageData) :
    (n, r) ∈ rs ↔ ∃ prices, (n, prices) ∈ wp ∧ arbitrage_entry pw n prices = some r := by
  induction wp generalizing rs with
  | nil =>
    simp only [build_records, Option.some.injEq] at h
    subst h
    simp
  | cons w rest ih =>
    obtain ⟨wn, wprices⟩ := w
    unfold build_records at h
    cases he : arbitrage_entry pw wn wprices with
    | none => rw [he] at h; cases h
    | some r0 =>
      cases hb : build_records pw rest with
      | none => rw [he, hb] at h; cases h
      | some rs0 =>
        rw [he, hb] at h
        simp only [Option.some.injEq] at h
        subst h
        constructor
        · intro hmem
          rcases List.mem_cons.1 hmem with heq | hmem2
          · have hn : n = wn := congrArg Prod.fst heq
            have hr : r = r0 := congrArg Prod.snd heq
            subst hn; subst hr
            exact ⟨wprices, List.mem_cons_self _ _, he⟩
          · obtain ⟨prices, hin, hen⟩ := (ih rs0 hb).1 hmem2
            exact ⟨prices, List.mem_cons_of_mem _ hin, hen⟩
        · rintro ⟨prices, hin, hen⟩
          rcases List.mem_cons.1 hin with heq | hmem2
          · have hn : n = wn := congrArg Prod.fst heq
            have hp : prices = wprices := congrArg Prod.snd heq
            subst hn; subst hp
            rw [hen] at he
            simp only [Option.some.injEq] at he
            rw [he]
            exact List.mem_cons_self _ _
          · exact List.mem_cons_of_mem _ ((ih rs0 hb).2 ⟨prices, hmem2, hen⟩)

/-- Membership in `filter_arbitrage`. -/
theorem mem_filter_arbitrage (min_arbitrage : Int) (m : List (String × ArbitrageData))
    (kv : String × ArbitrageData) :
    kv ∈ filter_arbitrage min_arbitrage m ↔ kv ∈ m ∧ min_arbitrage ≤ kv.2.arbitrage := by
  simp [filter_arbitrage, List.mem_filter, not_lt]

/-- `total_parts_price`'s fold, with an arbitrary accumulator. -/
theorem total_parts_price_foldl (l : List (String × Int)) (acc : Int) :
    l.foldl (fun acc p => if p.1 ≠ "set" then acc + p.2 else acc) acc =
      acc + ((l.filter fun p => !decide (p.1 = "set")).map Prod.snd).sum := by
  induction l generalizing acc with
  | nil => simp
  | cons p rest ih =>
    rw [List.foldl_cons, List.filter_cons]
    by_cases h : p.1 = "set"
    · rw [if_neg (by simpa using h), if_neg (by simpa using h)]
      exact ih acc
    · rw [if_pos (by simpa using h), if_pos (by simpa using h), List.map_cons, List.sum_cons,
        ih (acc + p.2)]
      ring

/-- Rows ordered ascending by the arbitrage column form a total relation. -/
instance : IsTotal Row fun a b => a.arbitrage ≤ b.arbitrage :=
  ⟨fun a b => Int.le_total a.arbitrage b.arbitrage⟩

/-- Rows ordered ascending by the arbitrage column form a transitive relation. -/
instance : IsTrans Row fun a b => a.arbitrage ≤ b.arbitrage :=
  ⟨fun _ _ _ h1 h2 => le_trans h1 h2⟩

/-! ## Claims -/

/-- The record `construct_warframes_arbitrage` builds for a set priced 5
whose four parts cost 10 each. -/
def cheap_set_record : ArbitrageData :=
  { arbitrage := 35, parts_price := 40, set_price := 5,
    market_url := "https://warframe.market/items/x", display_name := none }

/-- C1 counterexample: a set whose parts cost more than the set itself is
accepted (35 ≥ threshold 20), yet its stored arbitrage value 35 is not
`set_price - total_part_price = 5 - 40 = -35`: the code stores the
absolute difference, not the signed one. -/
theorem c1_arbitrage_not_signed_difference :
    construct_warframes_arbitrage [] 20
        [("x", [("set", 5), ("blueprint", 10), ("systems", 10), ("neuroptics", 10),
          ("chassis", 10)])] =
      some [("x", cheap_set_record)] ∧
    cheap_set_record.arbitrage ≠ cheap_set_record.set_price - cheap_set_record.parts_price := by
  refine ⟨rfl, by decide⟩

/-- C1 (amended): for every accepted opportunity record produced by
`construct_warframes_arbitrage`, the stored arbitrage value equals the
absolute difference `|set_price - total_part_price|` (the signed
difference only when the set is at least as expensive as its parts), and
it meets the threshold. -/
theorem construct_arbitrage_abs_and_threshold (pw : List PrimeWarframe) (min_arb : Int)
    (wp : List (String × List (String × Int))) (out : List (String × ArbitrageData))
    (h : construct_warframes_arbitrage pw min_arb wp = some out)
    (n : String) (r : ArbitrageData) (hmem : (n, r) ∈ out) :
    r.arbitrage = |r.set_price - r.parts_price| ∧ min_arb ≤ r.arbitrage := by
  unfold construct_warframes_arbitrage at h
  cases hb : build_records pw wp with
  | none => rw [hb] at h; cases h
  | some rs =>
    rw [hb] at h
    simp only [Option.map_some', Option.some.injEq] at h
    subst h
    have h2 := (mem_filter_arbitrage min_arb rs (n, r)).1 hmem
    obtain ⟨prices, _, he⟩ := (build_records_mem pw wp rs hb n r).1 h2.1
    exact ⟨(arbitrage_entry_fields pw n prices r he).1, h2.2⟩

/-- Witness for `construct_arbitrage_abs_and_threshold` at a concrete
accepted record. -/
theorem construct_arbitrage_abs_and_threshold_witness :
    cheap_set_record.arbitrage = |cheap_set_record.set_price - cheap_set_record.parts_price| ∧
      (20 : Int) ≤ cheap_set_record.arbitrage :=
  construct_arbitrage_abs_and_threshold [] 20
    [("x", [("set", 5), ("blueprint", 10), ("systems", 10), ("neuroptics", 10), ("chassis", 10)])]
    [("x", cheap_set_record)] rfl "x" cheap_set_record (by decide)

/-- C2: the retry loop of `construct_warframes_prices` around a part whose
every `get_lowest_price` attempt raises is still iterating at EVERY fuel
bound: because `retry_amount` is reset to `0` inside the `try` at the top
of each iteration, it never reaches `3`, so the loop never stops — the
bounded retry budget of the claim does not exist in the code. -/
theorem retry_loop_unbounded (attempt : Nat → Except PyErr Int)
    (h : ∀ i, ∃ e, attempt i = Except.error e) (fuel r i : Nat) :
    retry_loop attempt r i fuel = LoopOutcome.runningOut :=
  retry_loop_always_fails attempt h fuel r i

/-- Witness for `retry_loop_unbounded`: after 1000 iterations against a
permanently failing fetch the loop is still running. -/
theorem retry_loop_unbounded_witness :
    retry_loop (fun _ => Except.error PyErr.urlError) 0 0 1000 = LoopOutcome.runningOut :=
  retry_loop_unbounded (fun _ => Except.error PyErr.urlError)
    (fun _ => ⟨PyErr.urlError, rfl⟩) 1000 0 0

/-- A sell order on pc from an in-game seller whose listing is not
visible. -/
def invisible_sell_order : Order :=
  { user := { status := "ingame" }, platform := "pc", order_type := "sell",
    platinum := 10, visible := false }

/-- C3 counterexample: `filter_orders` retains an order that fails the
visibility condition (the code never reads the `visible` flag), while the
filter described by the claim would exclude it. -/
theorem c3_visibility_not_checked :
    invisible_sell_order.visible = false ∧
      filter_orders [invisible_sell_order] = [invisible_sell_order] ∧
      spec_filter_orders [invisible_sell_order] = [] := by decide

/-- C3 (amended): `filter_orders` retains an order if and only if it is
sell-side, on platform `'pc'`, and placed by a seller whose status is
`'ingame'`; the order's visibility flag is not checked. -/
theorem filter_orders_iff (l : List Order) (o : Order) :
    o ∈ filter_orders l ↔
      o ∈ l ∧ o.user.status = "ingame" ∧ o.platform = "pc" ∧ o.order_type = "sell" :=
  mem_filter_orders l o

/-- C4: an evaluated set's record is in the final output of
`construct_warframes_arbitrage` if and only if its arbitrage value meets
or exceeds `min_arbitrage`. -/
theorem construct_arbitrage_threshold_iff (pw : List PrimeWarframe) (min_arb : Int)
    (wp : List (String × List (String × Int))) (out : List (String × ArbitrageData))
    (h : construct_warframes_arbitrage pw min_arb wp = some out)
    (n : String) (prices : List (String × Int)) (r : ArbitrageData)
    (hin : (n, prices) ∈ wp) (he : arbitrage_entry pw n prices = some r) :
    (n, r) ∈ out ↔ min_arb ≤ r.arbitrage := by
  unfold construct_warframes_arbitrage at h
  cases hb : build_records pw wp with
  | none => rw [hb] at h; cases h
  | some rs =>
    rw [hb] at h
    simp only [Option.map_some', Option.some.injEq] at h
    subst h
    rw [mem_filter_arbitrage]
    constructor
    · exact fun h2 => h2.2
    · intro hge
      exact ⟨(build_records_mem pw wp rs hb n r).2 ⟨prices, hin, he⟩, hge⟩

/-- The record built for a set priced 50 whose parts total 30. -/
def surplus_set_record : ArbitrageData :=
  { arbitrage := 20, parts_price := 30, set_price := 50,
    market_url := "https://warframe.market/items/x", display_name := none }

/-- Witness for `construct_arbitrage_threshold_iff`: a record with
arbitrage 20 is in the output for threshold 20. -/
theorem construct_arbitrage_threshold_iff_witness :
    ("x", surplus_set_record) ∈ [("x", surplus_set_record)] :=
  (construct_arbitrage_threshold_iff [] 20
      [("x", [("set", 50), ("blueprint", 10), ("systems", 10), ("neuroptics", 5), ("chassis", 5)])]
      [("x", surplus_set_record)] rfl
      "x" [("set", 50), ("blueprint", 10), ("systems", 10), ("neuroptics", 5), ("chassis", 5)]
      surplus_set_record (by decide) rfl).2 (by decide)

/-- Unfolding of `get_lowest_price` on a successful fetch. -/
theorem get_lowest_price_ok (orders : List Order) :
    get_lowest_price (Except.ok orders) =
      match filter_orders orders with
      | [] => Except.error PyErr.indexError
      | o :: rest => Except.ok (lowest_loop (o :: rest) o.platinum) := rfl

/-- A buy order, whose presence leaves the retained (filtered) set empty. -/
def lone_buy_order : Order :=
  { user := { status := "ingame" }, platform := "pc", order_type := "buy",
    platinum := 3, visible := true }

/-- C5 counterexample: when the retained set is empty (here: the order book
holds only a buy order), `get_lowest_price` raises `IndexError` at
`filtered_orders[0]` — modelled as `Except.error` — instead of returning an
Unavailable value. -/
theorem c5_raises_on_empty_retained :
    get_lowest_price (Except.ok [lone_buy_order]) = Except.error PyErr.indexError := rfl

/-- C5 (amended): `get_lowest_price` returns the minimum platinum price
among the retained orders when that set is non-empty; when the retained
set is empty it raises `IndexError`, and when the underlying fetch failed
the fetch exception propagates — in neither failure case does it return an
Unavailable value (its callers rely on catching the exception). -/
theorem get_lowest_price_cases (orders : List Order) :
    (filter_orders orders = [] →
        get_lowest_price (Except.ok orders) = Except.error PyErr.indexError) ∧
      (filter_orders orders ≠ [] →
        ∃ v, get_lowest_price (Except.ok orders) = Except.ok v ∧
          (∃ o ∈ filter_orders orders, o.platinum = v) ∧
          ∀ o ∈ filter_orders orders, v ≤ o.platinum) ∧
      ∀ e, get_lowest_price (Except.error e) = Except.error e := by
  refine ⟨?_, ?_, fun e => rfl⟩
  · intro h
    rw [get_lowest_price_ok, h]
  · intro h
    cases hf : filter_orders orders with
    | nil => exact absurd hf h
    | cons o rest =>
      obtain ⟨hmem, hle, hall⟩ := lowest_loop_spec (o :: rest) o.platinum
      refine ⟨lowest_loop (o :: rest) o.platinum, ?_, ?_, ?_⟩
      · rw [get_lowest_price_ok, hf]
      · rcases hmem with heq | ⟨o2, ho2, heq⟩
        · exact ⟨o, List.mem_cons_self _ _, heq.symm⟩
        · exact ⟨o2, ho2, heq.symm⟩
      · exact hall

/-- A visible sell order at 7 platinum. -/
def sell_order_a : Order :=
  { user := { status := "ingame" }, platform := "pc", order_type := "sell",
    platinum := 7, visible := true }

/-- A hidden sell order at 5 platinum (retained: visibility is not read). -/
def sell_order_b : Order :=
  { user := { status := "ingame" }, platform := "pc", order_type := "sell",
    platinum := 5, visible := false }

/-- Witness for `get_lowest_price_cases` on a non-empty retained set. -/
theorem get_lowest_price_cases_witness :
    ∃ v, get_lowest_price (Except.ok [sell_order_a, sell_order_b]) = Except.ok v ∧
      (∃ o ∈ filter_orders [sell_order_a, sell_order_b], o.platinum = v) ∧
      ∀ o ∈ filter_orders [sell_order_a, sell_order_b], v ≤ o.platinum :=
  (get_lowest_price_cases [sell_order_a, sell_order_b]).2.1 (by decide)

/-- Price oracle of the spec's scenario: every attempt for `foo_chassis`
raises (it has no retained sell orders, so `filtered_orders[0]` raises
`IndexError`); every other item resolves to 10 platinum. -/
def foo_attempt : String → Nat → Except PyErr Int := fun part_name _ =>
  if part_name = "foo_chassis" then Except.error PyErr.indexError else Except.ok 10

/-- C6: when any component of any set in the cycle can never be resolved,
`construct_warframes_prices` never finishes at ANY fuel bound: the cycle
produces no output at all (for this set or any other), instead of
abandoning the one set and completing the cycle. -/
theorem c6_cycle_never_completes (attempt : String → Nat → Except PyErr Int) (fuel : Nat)
    (ws : List (String × List (String × String))) (acc : List (String × List (String × Int)))
    (h : ∃ w ∈ ws, ∃ p ∈ w.2, ∀ i, ∃ e, attempt p.2 i = Except.error e) :
    construct_warframes_prices attempt fuel ws acc = none :=
  construct_prices_of_failing_part attempt fuel ws acc h

/-- Witness for `c6_cycle_never_completes`: the spec's `foo` scenario, with
fuel 100, yields no cycle output. -/
theorem c6_cycle_never_completes_witness :
    construct_warframes_prices foo_attempt 100
      (construct_warframes_items [{ market_name := "foo", name := "Foo Prime" }]) [] = none :=
  c6_cycle_never_completes foo_attempt 100 _ []
    ⟨("foo", [("set", "foo_set"), ("blueprint", "foo_blueprint"), ("systems", "foo_systems"),
        ("neuroptics", "foo_neuroptics"), ("chassis", "foo_chassis")]),
      by decide,
      ("chassis", "foo_chassis"), by decide,
      fun i => ⟨PyErr.indexError, by simp [foo_attempt]⟩⟩

/-- C7 counterexample: for the spec's scenario prices (set 25, blueprint 5,
chassis 10, systems 3) the code's total component cost is `5 + 10 + 3 = 18`,
not the `5 + 10 + 2·3 = 21` the claim states, and the resulting arbitrage is
`7`, not `4`: the code has no quantity concept and counts each part price
exactly once. -/
theorem c7_quantities_not_multiplied :
    total_parts_price [("set", 25), ("blueprint", 5), ("chassis", 10), ("systems", 3)] = 18 ∧
      arbitrage_entry [] "foo_set"
          [("set", 25), ("blueprint", 5), ("chassis", 10), ("systems", 3)] =
        some { arbitrage := 7, parts_price := 18, set_price := 25,
               market_url := "https://warframe.market/items/foo_set", display_name := none } ∧
      (18 : Int) ≠ 21 ∧ (7 : Int) ≠ 4 := by
  refine ⟨rfl, rfl, by decide, by decide⟩

/-- C7 (amended): the total component cost is the plain sum of the quoted
prices of the non-set entries of the set's price dict, each counted
exactly once (the fixed manifest has no quantities). -/
theorem total_parts_price_eq_sum (prices : List (String × Int)) :
    total_parts_price prices =
      ((prices.filter fun p => !decide (p.1 = "set")).map Prod.snd).sum := by
  unfold total_parts_price
  rw [total_parts_price_foldl]
  ring

/-- A record with arbitrage 30, slug `a` (it appears in `market_url`). -/
def tie_record_a : ArbitrageData :=
  { arbitrage := 30, parts_price := 20, set_price := 50,
    market_url := "https://warframe.market/items/a", display_name := none }

/-- A record with arbitrage 30, slug `b`. -/
def tie_record_b : ArbitrageData :=
  { arbitrage := 30, parts_price := 25, set_price := 55,
    market_url := "https://warframe.market/items/b", display_name := none }

/-- C8 counterexample: two records with equal arbitrage values, inserted in
slug order `a`, `b`, are displayed in the order `b`, `a` — the ascending
stable sort keeps insertion order for ties and the final `reversed` flips
it — so for equal arbitrage values the displayed order is the REVERSE of
insertion order, not slug ascending. -/
theorem c8_tie_not_slug_ascending :
    tie_record_a.arbitrage = tie_record_b.arbitrage ∧
      print_table_rows [("a", tie_record_a), ("b", tie_record_b)] =
        [to_row tie_record_b, to_row tie_record_a] := by
  refine ⟨by decide, rfl⟩

/-- C8 (amended): the rows `print_table` displays are sorted by arbitrage
value descending; for equal arbitrage values the order is the reverse of
the insertion order of the results dict (deterministic for a given dict),
not slug ascending.  (`Scraper.run` itself returns the dict unsorted; only
the printed table is ordered.) -/
theorem print_table_rows_sorted_desc (results : List (String × ArbitrageData)) :
    List.Sorted (fun a b : Row => b.arbitrage ≤ a.arbitrage) (print_table_rows results) := by
  unfold print_table_rows sort_table
  rw [List.Sorted, List.pairwise_reverse]
  exact List.sorted_insertionSort _ _

/-- The record for a set 20 platinum more expensive than its parts. -/
def gap_up_record : ArbitrageData :=
  { arbitrage := 20, parts_price := 10, set_price := 30,
    market_url := "https://warframe.market/items/a", display_name := none }

/-- The record for a set 20 platinum cheaper than its parts. -/
def gap_down_record : ArbitrageData :=
  { arbitrage := 20, parts_price := 30, set_price := 10,
    market_url := "https://warframe.market/items/b", display_name := none }

/-- C9 counterexample: two inputs with opposite price-gap directions yield
records with the same arbitrage value 20 — so the sign is indeed lost in
the arbitrage field — but each record also stores `set_price` and
`parts_price`, and comparing those two stored fields recovers the
direction of the gap, so the sign IS recoverable from the record. -/
theorem c9_sign_recoverable_from_record :
    arbitrage_entry [] "a" [("set", 30), ("blueprint", 10)] = some gap_up_record ∧
      arbitrage_entry [] "b" [("set", 10), ("blueprint", 30)] = some gap_down_record ∧
      gap_up_record.arbitrage = gap_down_record.arbitrage ∧
      gap_up_record.set_price - gap_up_record.parts_price = 20 ∧
      gap_down_record.set_price - gap_down_record.parts_price = -20 ∧
      decide (gap_up_record.parts_price ≤ gap_up_record.set_price) ≠
        decide (gap_down_record.parts_price ≤ gap_down_record.set_price) := by
  refine ⟨rfl, rfl, by decide, by decide, by decide, by decide⟩

/-- C9 (amended): every record `construct_warframes_arbitrage` builds
stores the absolute difference `|set_price - total_parts_price|` as its
arbitrage value, which is therefore always non-negative; the sign of the
gap is not recoverable from the arbitrage value alone, though the record's
`set_price` and `parts_price` fields do expose it. -/
theorem arbitrage_entry_abs_nonneg (pw : List PrimeWarframe) (n : String)
    (prices : List (String × Int)) (r : ArbitrageData)
    (h : arbitrage_entry pw n prices = some r) :
    r.arbitrage = |r.set_price - r.parts_price| ∧ 0 ≤ r.arbitrage := by
  have habs := (arbitrage_entry_fields pw n prices r h).1
  exact ⟨habs, habs ▸ abs_nonneg _⟩

/-- Witness for `arbitrage_entry_abs_nonneg` at a concrete record. -/
theorem arbitrage_entry_abs_nonneg_witness :
    gap_up_record.arbitrage = |gap_up_record.set_price - gap_up_record.parts_price| ∧
      (0 : Int) ≤ gap_up_record.arbitrage :=
  arbitrage_entry_abs_nonneg [] "a" [("set", 30), ("blueprint", 10)] gap_up_record rfl

/-- C10: `filter_orders` only retains orders whose platform is `'pc'`; an
order on any other platform is excluded, whatever its other fields. -/
theorem filter_orders_requires_pc (l : List Order) (o : Order) :
    (o ∈ filter_orders l → o.platform = "pc") ∧
      (o.platform ≠ "pc" → o ∉ filter_orders l) := by
  constructor
  · intro hmem
    exact ((mem_filter_orders l o).1 hmem).2.2.1
  · intro hne hmem
    exact hne ((mem_filter_orders l o).1 hmem).2.2.1

/-- A visible sell order from an in-game seller, but on ps4. -/
def ps4_sell_order : Order :=
  { user := { status := "ingame" }, platform := "ps4", order_type := "sell",
    platinum := 10, visible := true }

/-- Witness for `filter_orders_requires_pc`: the ps4 sell order is
excluded. -/
theorem filter_orders_requires_pc_witness :
    ps4_sell_order ∉ filter_orders [ps4_sell_order] :=
  (filter_orders_requires_pc [ps4_sell_order] ps4_sell_order).2 (by decide)
